import Mathlib

/-! The display-mode launcher of lectern.

A verification development for `packaging/lectern_x11_wrapper.c`:

    int main(int argc, char *argv[]) {
        unsetenv("WAYLAND_DISPLAY");
        if (!getenv("DISPLAY"))
            setenv("DISPLAY", ":0", 1);
        char path[4096];
        snprintf(path, sizeof(path), "%s.bin", argv[0]);
        execv(path, argv);
        perror("execv");
        return 127;
    }

C strings are lists of bytes (without the terminating NUL).  The process
environment is the `environ` array: a list of entries, each one a C string
of the shape NAME=VALUE.  The C library calls are modelled after their
POSIX / glibc behaviour; the operating system (does `execv` succeed, and
with which `errno` does it fail; what does `strerror` say) is a parameter.
Memory allocation inside `setenv` is taken to succeed.
-/

namespace Lectern

/-- A C string: the bytes before the terminating NUL. -/
abbrev CString := List UInt8

/-- The bytes of an ASCII string literal of the source. -/
def cstr (s : String) : CString := s.toList.map (fun c => c.toNat.toUInt8)

/-- The process environment, `char **environ`: entries of the shape NAME=VALUE, in order. -/
abbrev Env := List CString

/-- The byte of the equals sign that separates name and value in an entry. -/
def eqSign : UInt8 := 61

/-- The byte of the line feed. -/
def newline : UInt8 := 10

/-- Does the entry define the variable `name`, that is, does it start with
`name` followed by the equals sign (the test `strncmp (name, *ep, len) == 0 && (*ep)[len] == '='`
that `getenv`, `setenv` and `unsetenv` share). -/
def defines (name : CString) (entry : CString) : Bool :=
  (name ++ [eqSign]).isPrefixOf entry

/-- The value part of an entry that defines `name`: what follows the equals sign. -/
def valueOf (name : CString) (entry : CString) : CString :=
  entry.drop (name.length + 1)

/-- The call `getenv(name)`: the value of the first entry that defines `name`,
`none` (the NULL pointer) when no entry does. -/
def getenv (name : CString) : Env → Option CString
  | [] => none
  | entry :: rest => if defines name entry then some (valueOf name entry) else getenv name rest

/-- The call `unsetenv(name)`: every entry that defines `name` is removed, the
others keep their order. -/
def unsetenv (name : CString) (environ : Env) : Env :=
  environ.filter (fun entry => !defines name entry)

/-- Replace the first entry that defines `name` by `entry`. -/
def replaceFirst (name : CString) (entry : CString) : Env → Env
  | [] => []
  | e :: rest => if defines name e then entry :: rest else e :: replaceFirst name entry rest

/-- The call `setenv(name, value, overwrite)`: when no entry defines `name`, the
entry NAME=VALUE is added at the end; when one does, the first such entry is
replaced if `overwrite` is nonzero and the environment is left alone otherwise. -/
def setenv (name value : CString) (overwrite : Int) (environ : Env) : Env :=
  match getenv name environ with
  | none => environ ++ [name ++ [eqSign] ++ value]
  | some _ => if overwrite ≠ 0 then replaceFirst name (name ++ [eqSign] ++ value) environ else environ

/-- The call `snprintf(buf, size, ...)` with `size > 0` for an output that formats to
`formatted`: at most `size - 1` bytes are stored (and then the NUL); the result is
the C string left in the buffer. -/
def snprintf (size : Nat) (formatted : CString) : CString :=
  formatted.take (size - 1)

/-- The number of bytes `snprintf` writes into the buffer, the NUL included. -/
def snprintfWritten (size : Nat) (formatted : CString) : Nat :=
  if size = 0 then 0 else (snprintf size formatted).length + 1

/-- The operating system as the launcher sees it. -/
structure OS where
  /-- The call `execv(path, argv)` under the current environment: `none` when the process
  image is replaced (the call does not return), `some errno` when it fails. -/
  execv : CString → List CString → Env → Option Nat
  /-- The description `strerror(errno)` of an error number. -/
  strerror : Nat → CString

/-- The call `perror(s)` with the given `errno`: what it writes to standard error. -/
def perror (os : OS) (errno : Nat) (s : CString) : CString :=
  (if s.isEmpty then [] else s ++ cstr ": ") ++ os.strerror errno ++ [newline]

/-- The arguments of the one `execv` call of the launcher, with the environment at that point. -/
structure ExecCall where
  path : CString
  argv : List CString
  environ : Env
  deriving DecidableEq

/-- One run of the launcher. -/
structure Run where
  /-- The transfer the launcher attempts. -/
  call : ExecCall
  /-- What the launcher wrote to standard output. -/
  stdout : CString
  /-- What the launcher wrote to standard error. -/
  stderr : CString
  /-- The value `main` returns; `none` when `execv` replaced the process image. -/
  status : Option Int
  deriving DecidableEq

/-- The size of the buffer, `sizeof(path)`. -/
def pathSize : Nat := 4096

/-- The function `main` of the launcher, on the initial environment and the argument
vector (`argc` is the length of `argv`; the source does not read it).  With an empty
argument vector `argv[0]` is the NULL pointer and the `%s` conversion of it is
undefined: the result is `none`. -/
def main (os : OS) (environ : Env) (argv : List CString) : Option Run :=
  let environ := unsetenv (cstr "WAYLAND_DISPLAY") environ
  let environ :=
    if (getenv (cstr "DISPLAY") environ).isNone then
      setenv (cstr "DISPLAY") (cstr ":0") 1 environ
    else environ
  match argv.head? with
  | none => none
  | some argv0 =>
    let path := snprintf pathSize (argv0 ++ cstr ".bin")
    match os.execv path argv environ with
    | none => some { call := ⟨path, argv, environ⟩, stdout := [], stderr := [], status := none }
    | some errno =>
      some { call := ⟨path, argv, environ⟩, stdout := [],
             stderr := perror os errno (cstr "execv"), status := some 127 }

/-- An operating system in which no path can be executed: every `execv` fails with ENOENT. -/
def osMissing : OS where
  execv := fun _ _ _ => some 2
  strerror := fun _ => cstr "No such file or directory"

/-- An operating system in which every `execv` succeeds. -/
def osPresent : OS where
  execv := fun _ _ _ => none
  strerror := fun _ => cstr "Success"

/-- An operating system in which exactly one path names an executable file: `execv` of
`target` succeeds, `execv` of any other path fails with ENOENT. -/
def osOnly (target : CString) : OS where
  execv := fun path _ _ => if path = target then none else some 2
  strerror := fun _ => cstr "No such file or directory"

/-- The environment after the first three statements of `main`: WAYLAND_DISPLAY
removed, then DISPLAY given the value :0 when it has none. -/
def forceX11 (environ : Env) : Env :=
  let environ := unsetenv (cstr "WAYLAND_DISPLAY") environ
  if (getenv (cstr "DISPLAY") environ).isNone then
    setenv (cstr "DISPLAY") (cstr ":0") 1 environ
  else environ

/-! ## The environment calls -/

theorem defines_iff (name entry : CString) :
    defines name entry = true ↔ (name ++ [eqSign]) <+: entry := by
  unfold defines
  exact List.isPrefixOf_iff_prefix

theorem getenv_eq_none_iff (name : CString) (environ : Env) :
    getenv name environ = none ↔ ∀ e ∈ environ, defines name e = false := by
  induction environ with
  | nil => simp [getenv]
  | cons e rest ih =>
    by_cases h : defines name e = true
    · simp [getenv, h]
    · simp [getenv, h, ih]

theorem getenv_unsetenv_self (name : CString) (environ : Env) :
    getenv name (unsetenv name environ) = none := by
  rw [getenv_eq_none_iff]
  intro e he
  have := (List.mem_filter.mp he).2
  simpa using this

theorem getenv_unsetenv_of_ne (n m : CString) (environ : Env)
    (h : ∀ e, defines n e = true → defines m e = false) :
    getenv n (unsetenv m environ) = getenv n environ := by
  induction environ with
  | nil => rfl
  | cons e rest ih =>
    unfold unsetenv at ih ⊢
    by_cases hn : defines n e = true
    · simp [List.filter_cons, h e hn, getenv, hn]
    · by_cases hm : defines m e = true
      · simp [List.filter_cons, hm, getenv, hn, ih]
      · simp [List.filter_cons, hm, getenv, hn, ih]

theorem getenv_append (name : CString) (l₁ l₂ : Env) :
    getenv name (l₁ ++ l₂) = (getenv name l₁).orElse (fun _ => getenv name l₂) := by
  induction l₁ with
  | nil => simp [getenv]
  | cons e rest ih =>
    by_cases h : defines name e = true
    · simp [getenv, h]
    · simp [getenv, h, ih]

theorem unsetenv_eq_self (name : CString) (environ : Env)
    (h : ∀ e ∈ environ, defines name e = false) : unsetenv name environ = environ := by
  unfold unsetenv
  rw [List.filter_eq_self]
  intro e he
  simp [h e he]

/-- A prefix of `m ++ [c]` that ends in `c` is all of it, when `c` occurs in neither name. -/
theorem eq_of_snoc_prefix_snoc (c : UInt8) :
    ∀ (n m : CString), c ∉ n → c ∉ m → (n ++ [c]) <+: (m ++ [c]) → n = m
  | [], [], _, _, _ => rfl
  | [], b :: m, _, hm, h => by
    have : c = b := by
      rw [List.nil_append, List.cons_append, List.cons_prefix_cons] at h
      exact h.1
    exact absurd (this ▸ List.mem_cons_self c m) hm
  | a :: n, [], hn, _, h => by
    have hlen := h.length_le
    simp at hlen
  | a :: n, b :: m, hn, hm, h => by
    rw [List.cons_append, List.cons_append, List.cons_prefix_cons] at h
    have ih := eq_of_snoc_prefix_snoc c n m (fun hc => hn (List.mem_cons_of_mem _ hc))
      (fun hc => hm (List.mem_cons_of_mem _ hc)) h.2
    rw [h.1, ih]

/-- An entry defines at most one variable (names hold no equals sign). -/
theorem defines_unique (n m entry : CString) (hn : eqSign ∉ n) (hm : eqSign ∉ m)
    (h₁ : defines n entry = true) (h₂ : defines m entry = true) : n = m := by
  rw [defines_iff] at h₁ h₂
  rcases Nat.le_total (n ++ [eqSign]).length (m ++ [eqSign]).length with hle | hle
  · exact eq_of_snoc_prefix_snoc eqSign n m hn hm (List.prefix_of_prefix_length_le h₁ h₂ hle)
  · exact (eq_of_snoc_prefix_snoc eqSign m n hm hn (List.prefix_of_prefix_length_le h₂ h₁ hle)).symm

/-! ## The adjusted environment -/

theorem eqSign_not_mem_wayland : eqSign ∉ cstr "WAYLAND_DISPLAY" := by decide

theorem eqSign_not_mem_display : eqSign ∉ cstr "DISPLAY" := by decide

/-- An entry that defines DISPLAY does not define WAYLAND_DISPLAY. -/
theorem display_not_wayland (e : CString) (h : defines (cstr "DISPLAY") e = true) :
    defines (cstr "WAYLAND_DISPLAY") e = false := by
  by_contra hw
  have hw := (Bool.not_eq_false _).mp hw
  have := defines_unique _ _ e eqSign_not_mem_display eqSign_not_mem_wayland h hw
  revert this
  decide

theorem forceX11_of_set (environ : Env) (v : CString)
    (h : getenv (cstr "DISPLAY") environ = some v) :
    forceX11 environ = unsetenv (cstr "WAYLAND_DISPLAY") environ := by
  have h2 := getenv_unsetenv_of_ne (cstr "DISPLAY") (cstr "WAYLAND_DISPLAY") environ
    display_not_wayland
  simp [forceX11, h2, h]

theorem forceX11_of_unset (environ : Env)
    (h : getenv (cstr "DISPLAY") environ = none) :
    forceX11 environ = unsetenv (cstr "WAYLAND_DISPLAY") environ ++ [cstr "DISPLAY=:0"] := by
  have h2 := getenv_unsetenv_of_ne (cstr "DISPLAY") (cstr "WAYLAND_DISPLAY") environ
    display_not_wayland
  have h3 : cstr "DISPLAY" ++ [eqSign] ++ cstr ":0" = cstr "DISPLAY=:0" := by decide
  simp [forceX11, h2, h, setenv, h3]

theorem forceX11_no_wayland (environ : Env) :
    ∀ e ∈ forceX11 environ, defines (cstr "WAYLAND_DISPLAY") e = false := by
  have hfilter : ∀ e ∈ unsetenv (cstr "WAYLAND_DISPLAY") environ,
      defines (cstr "WAYLAND_DISPLAY") e = false := by
    intro e he
    simpa using (List.mem_filter.mp he).2
  cases h : getenv (cstr "DISPLAY") environ with
  | some v =>
    rw [forceX11_of_set environ v h]
    exact hfilter
  | none =>
    rw [forceX11_of_unset environ h]
    intro e he
    rcases List.mem_append.mp he with he | he
    · exact hfilter e he
    · have : e = cstr "DISPLAY=:0" := by simpa using he
      subst this
      decide

theorem getenv_display_forceX11 (environ : Env) :
    getenv (cstr "DISPLAY") (forceX11 environ) =
      some ((getenv (cstr "DISPLAY") environ).getD (cstr ":0")) := by
  have h2 := getenv_unsetenv_of_ne (cstr "DISPLAY") (cstr "WAYLAND_DISPLAY") environ
    display_not_wayland
  cases h : getenv (cstr "DISPLAY") environ with
  | some v =>
    rw [forceX11_of_set environ v h, h2, h]
    rfl
  | none =>
    rw [forceX11_of_unset environ h, getenv_append, h2, h]
    decide

/-- What `main` does on a non-empty argument vector, statement by statement. -/
theorem main_cons (os : OS) (environ : Env) (argv0 : CString) (rest : List CString) :
    main os environ (argv0 :: rest) =
      some { call := ⟨snprintf pathSize (argv0 ++ cstr ".bin"), argv0 :: rest, forceX11 environ⟩
             stdout := []
             stderr :=
               match os.execv (snprintf pathSize (argv0 ++ cstr ".bin")) (argv0 :: rest)
                 (forceX11 environ) with
               | none => []
               | some errno => perror os errno (cstr "execv")
             status :=
               (os.execv (snprintf pathSize (argv0 ++ cstr ".bin")) (argv0 :: rest)
                 (forceX11 environ)).map (fun _ => 127) } := by
  simp only [main, List.head?_cons]
  change (match os.execv (snprintf pathSize (argv0 ++ cstr ".bin")) (argv0 :: rest)
    (forceX11 environ) with
    | none => _
    | some errno => _) = _
  cases os.execv (snprintf pathSize (argv0 ++ cstr ".bin")) (argv0 :: rest) (forceX11 environ) <;> rfl

theorem forceX11_frame (environ : Env) (name : CString) (hname : eqSign ∉ name)
    (hw : name ≠ cstr "WAYLAND_DISPLAY") (hd : name ≠ cstr "DISPLAY") :
    getenv name (forceX11 environ) = getenv name environ := by
  have h2 := getenv_unsetenv_of_ne name (cstr "WAYLAND_DISPLAY") environ (by
    intro e he
    by_contra hc
    exact hw (defines_unique _ _ e hname eqSign_not_mem_wayland he ((Bool.not_eq_false _).mp hc)))
  cases h : getenv (cstr "DISPLAY") environ with
  | some v => rw [forceX11_of_set environ v h, h2]
  | none =>
    rw [forceX11_of_unset environ h, getenv_append, h2]
    have h3 : getenv name [cstr "DISPLAY=:0"] = none := by
      rw [getenv_eq_none_iff]
      intro e he
      have : e = cstr "DISPLAY=:0" := by simpa using he
      subst this
      by_contra hc
      exact hd (defines_unique _ _ _ hname eqSign_not_mem_display ((Bool.not_eq_false _).mp hc)
        (by decide))
    rw [h3]
    cases getenv name environ <;> rfl

theorem forceX11_others (environ : Env) :
    (forceX11 environ).filter
        (fun e => !defines (cstr "WAYLAND_DISPLAY") e && !defines (cstr "DISPLAY") e) =
      environ.filter
        (fun e => !defines (cstr "WAYLAND_DISPLAY") e && !defines (cstr "DISPLAY") e) := by
  have hfilter : (unsetenv (cstr "WAYLAND_DISPLAY") environ).filter
        (fun e => !defines (cstr "WAYLAND_DISPLAY") e && !defines (cstr "DISPLAY") e) =
      environ.filter
        (fun e => !defines (cstr "WAYLAND_DISPLAY") e && !defines (cstr "DISPLAY") e) := by
    unfold unsetenv
    rw [List.filter_filter]
    congr 1
    funext e
    cases defines (cstr "WAYLAND_DISPLAY") e <;> cases defines (cstr "DISPLAY") e <;> rfl
  cases h : getenv (cstr "DISPLAY") environ with
  | some v => rw [forceX11_of_set environ v h, hfilter]
  | none =>
    rw [forceX11_of_unset environ h, List.filter_append, hfilter]
    have : [cstr "DISPLAY=:0"].filter
        (fun e => !defines (cstr "WAYLAND_DISPLAY") e && !defines (cstr "DISPLAY") e) = [] := by
      decide
    rw [this, List.append_nil]

theorem filter_display_unsetenv (environ : Env) :
    (unsetenv (cstr "WAYLAND_DISPLAY") environ).filter (fun e => defines (cstr "DISPLAY") e) =
      environ.filter (fun e => defines (cstr "DISPLAY") e) := by
  unfold unsetenv
  rw [List.filter_filter]
  apply List.filter_congr
  intro e _
  cases hd : defines (cstr "DISPLAY") e
  · rfl
  · rw [display_not_wayland e hd]
    rfl

theorem forceX11_idem (environ : Env) : forceX11 (forceX11 environ) = forceX11 environ := by
  rw [forceX11_of_set (forceX11 environ) _ (getenv_display_forceX11 environ)]
  exact unsetenv_eq_self _ _ (forceX11_no_wayland environ)

/-! ## The derived path -/

theorem bin_length : (cstr ".bin").length = 4 := by decide

theorem snprintf_length_le (size : Nat) (formatted : CString) :
    (snprintf size formatted).length ≤ size - 1 := by
  unfold snprintf
  rw [List.length_take]
  exact Nat.min_le_left _ _

theorem snprintf_initial (size : Nat) (formatted : CString) :
    snprintf size formatted <+: formatted := by
  unfold snprintf
  exact List.take_prefix _ _

theorem snprintf_longest (size : Nat) (formatted q : CString) (hq : q <+: formatted)
    (hlen : q.length ≤ size - 1) : q <+: snprintf size formatted := by
  unfold snprintf
  exact List.prefix_take_iff.mpr ⟨hq, hlen⟩

theorem snprintf_eq_iff (size : Nat) (formatted : CString) :
    snprintf size formatted = formatted ↔ formatted.length ≤ size - 1 := by
  unfold snprintf
  exact List.take_eq_self_iff _

theorem snprintf_length_of_lt (size : Nat) (formatted : CString)
    (h : size - 1 < formatted.length) : (snprintf size formatted).length = size - 1 := by
  unfold snprintf
  rw [List.length_take]
  omega

/-- The launcher on a missing target, evaluated. -/
theorem main_example : main osMissing [cstr "WAYLAND_DISPLAY=wayland-0", cstr "HOME=/root"] [cstr "/opt/app/myapp", cstr "-v"]
    = some { call := ⟨cstr "/opt/app/myapp.bin", [cstr "/opt/app/myapp", cstr "-v"], [cstr "HOME=/root", cstr "DISPLAY=:0"]⟩,
             stdout := [], stderr := cstr "execv: No such file or directory\n", status := some 127 } := by
  decide

theorem osOnly_execv_self (target : CString) (argv : List CString) (environ : Env) :
    (osOnly target).execv target argv environ = none :=
  if_pos rfl

theorem osOnly_execv_of_ne (target path : CString) (argv : List CString) (environ : Env)
    (h : path ≠ target) : (osOnly target).execv path argv environ = some 2 :=
  if_neg h

/-- The path given to `execv` is a function of `argv[0]` alone, and it is `argv[0]`
followed by .bin when that has room in the buffer. -/
theorem path_of_short_argv0 (os os2 : OS) (environ environ2 : Env) (argv0 : CString)
    (rest rest2 : List CString) :
    ∃ run run2, main os environ (argv0 :: rest) = some run ∧
      main os2 environ2 (argv0 :: rest2) = some run2 ∧
      run2.call.path = run.call.path ∧
      (argv0.length ≤ 4091 → run.call.path = argv0 ++ cstr ".bin") := by
  refine ⟨_, _, main_cons os environ argv0 rest, main_cons os2 environ2 argv0 rest2, rfl, ?_⟩
  intro h
  show snprintf pathSize (argv0 ++ cstr ".bin") = argv0 ++ cstr ".bin"
  rw [snprintf_eq_iff, List.length_append, bin_length, pathSize]
  omega

/-- The scenario of the specification: /opt/app/myapp gives /opt/app/myapp.bin . -/
theorem path_of_myapp :
    ∃ run, main osPresent [] [cstr "/opt/app/myapp"] = some run ∧
      run.call.path = cstr "/opt/app/myapp.bin" := by
  obtain ⟨run, _, hrun, _, _, hpath⟩ := path_of_short_argv0 osPresent osMissing []
    [cstr "DISPLAY=:1"] (cstr "/opt/app/myapp") [] [cstr "-v"]
  refine ⟨run, hrun, ?_⟩
  rw [hpath (by decide)]
  decide

theorem snprintf_cut_of_length (argv0 : CString) (hlen : argv0.length = 4092) :
    snprintf pathSize (argv0 ++ cstr ".bin") = argv0 ++ cstr ".bi" := by
  unfold snprintf pathSize
  rw [List.take_append_eq_append_take, List.take_of_length_le (by omega), hlen]
  have h3 : List.take (4096 - 1 - 4092) (cstr ".bin") = cstr ".bi" := by decide
  rw [h3]

/-- The run on an `argv[0]` of 4092 bytes, on a system where only `argv[0]` followed by
.bi can be executed. -/
theorem main_cut_of_length (argv0 : CString) (hlen : argv0.length = 4092) :
    ∃ run, main (osOnly (argv0 ++ cstr ".bi")) [] [argv0] = some run ∧
      run.call.path = argv0 ++ cstr ".bi" ∧
      run.call.path ≠ argv0 ++ cstr ".bin" ∧
      run.status = none ∧
      (osOnly (argv0 ++ cstr ".bi")).execv (argv0 ++ cstr ".bin") run.call.argv
        run.call.environ = some 2 := by
  have hpath := snprintf_cut_of_length argv0 hlen
  have hne : argv0 ++ cstr ".bin" ≠ argv0 ++ cstr ".bi" := by
    intro h
    have h2 : (cstr ".bi").length = 3 := by decide
    have hl := congrArg List.length h
    rw [List.length_append, List.length_append, bin_length, h2] at hl
    omega
  have hmain := main_cons (osOnly (argv0 ++ cstr ".bi")) [] argv0 []
  rw [hpath, osOnly_execv_self] at hmain
  exact ⟨_, hmain, rfl, fun h => hne h.symm, rfl, osOnly_execv_of_ne _ _ _ _ hne⟩

/-! ## The claims -/

/-- C1: for every initial environment and every argument vector with an `argv[0]`, the
environment at the `execv` call has no WAYLAND_DISPLAY entry: `getenv` finds none and
no entry of `environ` defines it, whatever the variable was before (set, set to the
empty string, set several times, or not set). -/
theorem C1_wayland_display_absent (os : OS) (environ : Env) (argv0 : CString)
    (rest : List CString) :
    ∃ run, main os environ (argv0 :: rest) = some run ∧
      getenv (cstr "WAYLAND_DISPLAY") run.call.environ = none ∧
      ∀ e ∈ run.call.environ, defines (cstr "WAYLAND_DISPLAY") e = false :=
  ⟨_, main_cons os environ argv0 rest,
    (getenv_eq_none_iff _ _).mpr (forceX11_no_wayland environ), forceX11_no_wayland environ⟩

/-- C2: when DISPLAY is set to a value `v` in the initial environment (any string, the
empty one included), the environment at the `execv` call still gives DISPLAY the
value `v`, and the entries of `environ` that define DISPLAY are the same list as
initially: none is overwritten, added or removed. -/
theorem C2_display_kept (os : OS) (environ : Env) (argv0 : CString) (rest : List CString)
    (v : CString) (h : getenv (cstr "DISPLAY") environ = some v) :
    ∃ run, main os environ (argv0 :: rest) = some run ∧
      getenv (cstr "DISPLAY") run.call.environ = some v ∧
      run.call.environ.filter (fun e => defines (cstr "DISPLAY") e) =
        environ.filter (fun e => defines (cstr "DISPLAY") e) := by
  refine ⟨_, main_cons os environ argv0 rest, ?_, ?_⟩
  · show getenv (cstr "DISPLAY") (forceX11 environ) = some v
    rw [getenv_display_forceX11, h]
    rfl
  · show (forceX11 environ).filter _ = _
    rw [forceX11_of_set environ v h]
    exact filter_display_unsetenv environ

/-- C2 at an input: DISPLAY set to the empty string, next to a WAYLAND_DISPLAY entry. -/
theorem C2_display_kept_witness :
    getenv (cstr "DISPLAY") [cstr "WAYLAND_DISPLAY=wayland-0", cstr "DISPLAY="] = some [] ∧
    ∃ run, main osPresent [cstr "WAYLAND_DISPLAY=wayland-0", cstr "DISPLAY="]
        (cstr "/opt/app/myapp" :: [cstr "--help"]) = some run ∧
      getenv (cstr "DISPLAY") run.call.environ = some [] := by
  obtain ⟨run, hrun, hget, _⟩ := C2_display_kept osPresent
    [cstr "WAYLAND_DISPLAY=wayland-0", cstr "DISPLAY="] (cstr "/opt/app/myapp")
    [cstr "--help"] [] (by decide)
  exact ⟨by decide, run, hrun, hget⟩

/-- C3: DISPLAY is set in the environment at the `execv` call for every initial
environment, and when it was not set initially its value there is exactly :0 . -/
theorem C3_display_defaulted (os : OS) (environ : Env) (argv0 : CString)
    (rest : List CString) :
    ∃ run, main os environ (argv0 :: rest) = some run ∧
      (getenv (cstr "DISPLAY") run.call.environ).isSome = true ∧
      (getenv (cstr "DISPLAY") environ = none →
        getenv (cstr "DISPLAY") run.call.environ = some (cstr ":0")) := by
  refine ⟨_, main_cons os environ argv0 rest, ?_, ?_⟩
  · show (getenv (cstr "DISPLAY") (forceX11 environ)).isSome = true
    rw [getenv_display_forceX11]
    rfl
  · intro h
    show getenv (cstr "DISPLAY") (forceX11 environ) = some (cstr ":0")
    rw [getenv_display_forceX11, h]
    rfl

/-- C3 at an input: an environment without DISPLAY. -/
theorem C3_display_defaulted_witness :
    getenv (cstr "DISPLAY") [cstr "HOME=/root", cstr "WAYLAND_DISPLAY=wayland-0"] = none ∧
    ∃ run, main osPresent [cstr "HOME=/root", cstr "WAYLAND_DISPLAY=wayland-0"]
        [cstr "/opt/app/myapp"] = some run ∧
      getenv (cstr "DISPLAY") run.call.environ = some (cstr ":0") := by
  obtain ⟨run, hrun, _, hdef⟩ := C3_display_defaulted osPresent
    [cstr "HOME=/root", cstr "WAYLAND_DISPLAY=wayland-0"] (cstr "/opt/app/myapp") []
  exact ⟨by decide, run, hrun, hdef (by decide)⟩

/-- C4: the argument vector given to `execv` is the one `main` received: the same list,
so the same length and the same elements in the same order, its first element still
`argv[0]` as received.  No argument is read as an option: with other arguments after
the same `argv[0]` the path and the environment of the `execv` call are the same. -/
theorem C4_argv_unchanged (os : OS) (environ : Env) (argv0 : CString) (rest : List CString) :
    ∃ run, main os environ (argv0 :: rest) = some run ∧
      run.call.argv = argv0 :: rest ∧
      run.call.argv.length = (argv0 :: rest).length ∧
      run.call.argv.head? = some argv0 ∧
      ∀ rest2 : List CString, ∃ run2, main os environ (argv0 :: rest2) = some run2 ∧
        run2.call.argv = argv0 :: rest2 ∧
        run2.call.path = run.call.path ∧ run2.call.environ = run.call.environ :=
  ⟨_, main_cons os environ argv0 rest, rfl, rfl, rfl,
    fun rest2 => ⟨_, main_cons os environ argv0 rest2, rfl, rfl, rfl⟩⟩

/-- C8: the frame of the environment adjustment.  For every variable name (a string
without an equals sign) other than WAYLAND_DISPLAY and DISPLAY, `getenv` gives at the
`execv` call what it gave initially; and the entries of `environ` that define neither
WAYLAND_DISPLAY nor DISPLAY are the same list at the `execv` call as initially. -/
theorem C8_other_variables_unchanged (os : OS) (environ : Env) (argv0 : CString)
    (rest : List CString) :
    ∃ run, main os environ (argv0 :: rest) = some run ∧
      (∀ name : CString, eqSign ∉ name → name ≠ cstr "WAYLAND_DISPLAY" →
        name ≠ cstr "DISPLAY" → getenv name run.call.environ = getenv name environ) ∧
      run.call.environ.filter
          (fun e => !defines (cstr "WAYLAND_DISPLAY") e && !defines (cstr "DISPLAY") e) =
        environ.filter
          (fun e => !defines (cstr "WAYLAND_DISPLAY") e && !defines (cstr "DISPLAY") e) :=
  ⟨_, main_cons os environ argv0 rest, forceX11_frame environ, forceX11_others environ⟩

/-- C8 at an input: HOME keeps its value, XDG_SESSION_TYPE stays unset. -/
theorem C8_other_variables_unchanged_witness :
    ∃ run, main osPresent [cstr "WAYLAND_DISPLAY=wayland-0", cstr "HOME=/root"]
        [cstr "/opt/app/myapp"] = some run ∧
      getenv (cstr "HOME") run.call.environ = some (cstr "/root") ∧
      getenv (cstr "XDG_SESSION_TYPE") run.call.environ = none := by
  obtain ⟨run, hrun, hframe, _⟩ := C8_other_variables_unchanged osPresent
    [cstr "WAYLAND_DISPLAY=wayland-0", cstr "HOME=/root"] (cstr "/opt/app/myapp") []
  refine ⟨run, hrun, ?_, ?_⟩
  · rw [hframe (cstr "HOME") (by decide) (by decide) (by decide)]
    decide
  · rw [hframe (cstr "XDG_SESSION_TYPE") (by decide) (by decide) (by decide)]
    decide

/-- C10: the environment adjustment is idempotent.  The environment at the `execv` call
is the adjusted one, adjusting it again changes nothing, and a second launcher
started on it (by any caller, with any arguments) reaches its own `execv` call with
the same environment. -/
theorem C10_adjustment_idempotent (os os2 : OS) (environ : Env) (argv0 argv0b : CString)
    (rest restb : List CString) :
    forceX11 (forceX11 environ) = forceX11 environ ∧
    ∃ run run2, main os environ (argv0 :: rest) = some run ∧
      run.call.environ = forceX11 environ ∧
      main os2 run.call.environ (argv0b :: restb) = some run2 ∧
      run2.call.environ = run.call.environ :=
  ⟨forceX11_idem environ, _, _, main_cons os environ argv0 rest, rfl,
    main_cons os2 (forceX11 environ) argv0b restb, forceX11_idem environ⟩

/-- C5 fails on the code at an `argv[0]` of 4092 bytes (the letter a, 4092 times), for
which `argv[0]` followed by .bin has 4096 bytes and the buffer holds 4095: the path
given to `execv` is `argv[0]` followed by .bi, not by .bin .  On a system where
only that shorter path names an executable file the transfer succeeds (`main`
returns no status), although `execv` of `argv[0]` followed by .bin fails there: a
file other than the target is run. -/
theorem C5_path_cut_at_4092 :
    ∃ run, main (osOnly (List.replicate 4092 97 ++ cstr ".bi")) []
        [List.replicate 4092 97] = some run ∧
      run.call.path = List.replicate 4092 97 ++ cstr ".bi" ∧
      run.call.path ≠ List.replicate 4092 97 ++ cstr ".bin" ∧
      run.status = none ∧
      (osOnly (List.replicate 4092 97 ++ cstr ".bi")).execv
        (List.replicate 4092 97 ++ cstr ".bin") run.call.argv run.call.environ = some 2 :=
  main_cut_of_length (List.replicate 4092 97) (List.length_replicate _ _)

/-- C6: `main` returns a status exactly when `execv` fails, and the status is then 127,
whatever the error number, the environment and the arguments; when `execv` succeeds
`main` returns nothing. -/
theorem C6_status_127_iff_failure (os : OS) (environ : Env) (argv0 : CString)
    (rest : List CString) :
    ∃ run, main os environ (argv0 :: rest) = some run ∧
      ((∃ status, run.status = some status) ↔
        ∃ errno, os.execv run.call.path run.call.argv run.call.environ = some errno) ∧
      (∀ status, run.status = some status → status = 127) ∧
      (∀ errno, os.execv run.call.path run.call.argv run.call.environ = some errno →
        run.status = some 127) ∧
      (os.execv run.call.path run.call.argv run.call.environ = none → run.status = none) := by
  refine ⟨_, main_cons os environ argv0 rest, ?_⟩
  dsimp only
  cases os.execv (snprintf pathSize (argv0 ++ cstr ".bin")) (argv0 :: rest) (forceX11 environ)
    <;> simp

/-- C6 at two inputs: a missing target gives status 127, a present one no status. -/
theorem C6_status_127_iff_failure_witness :
    (∃ run, main osMissing [cstr "WAYLAND_DISPLAY=wayland-0", cstr "DISPLAY=:7"]
        [cstr "/opt/app/myapp"] = some run ∧ run.status = some 127) ∧
    (∃ run, main osPresent [cstr "WAYLAND_DISPLAY=wayland-0", cstr "DISPLAY=:7"]
        [cstr "/opt/app/myapp"] = some run ∧ run.status = none) := by
  constructor
  · obtain ⟨run, hrun, _, _, hfail, _⟩ := C6_status_127_iff_failure osMissing
      [cstr "WAYLAND_DISPLAY=wayland-0", cstr "DISPLAY=:7"] (cstr "/opt/app/myapp") []
    exact ⟨run, hrun, hfail 2 rfl⟩
  · obtain ⟨run, hrun, _, _, _, hok⟩ := C6_status_127_iff_failure osPresent
      [cstr "WAYLAND_DISPLAY=wayland-0", cstr "DISPLAY=:7"] (cstr "/opt/app/myapp") []
    exact ⟨run, hrun, hok rfl⟩

/-- C7: the launcher writes nothing to standard output; when `execv` succeeds it writes
nothing to standard error either; when `execv` fails with error number `errno` it
writes to standard error the text "execv: ", the description `strerror(errno)` and a
line feed, which is exactly one line when the description holds no line feed. -/
theorem C7_diagnostic_line (os : OS) (environ : Env) (argv0 : CString) (rest : List CString) :
    ∃ run, main os environ (argv0 :: rest) = some run ∧
      run.stdout = [] ∧
      (os.execv run.call.path run.call.argv run.call.environ = none → run.stderr = []) ∧
      (∀ errno, os.execv run.call.path run.call.argv run.call.environ = some errno →
        run.stderr = cstr "execv: " ++ os.strerror errno ++ [newline] ∧
        (newline ∉ os.strerror errno → run.stderr.count newline = 1)) := by
  refine ⟨_, main_cons os environ argv0 rest, rfl, ?_⟩
  dsimp only
  cases os.execv (snprintf pathSize (argv0 ++ cstr ".bin")) (argv0 :: rest) (forceX11 environ) with
  | none => simp
  | some e =>
    have hhead : (if (cstr "execv").isEmpty then [] else cstr "execv" ++ cstr ": ") =
        cstr "execv: " := by decide
    have hcount : (cstr "execv: ").count newline = 0 := by decide
    refine ⟨by simp, ?_⟩
    intro errno herr
    cases herr
    refine ⟨by simp only [perror, hhead], ?_⟩
    intro hline
    simp only [perror, hhead, List.count_append, hcount, List.count_eq_zero_of_not_mem hline]
    decide

/-- C7 at an input: the target is missing, the one line names `execv` and the error. -/
theorem C7_diagnostic_line_witness :
    ∃ run, main osMissing [cstr "DISPLAY=:7"] [cstr "/opt/app/myapp"] = some run ∧
      run.stdout = [] ∧
      run.stderr = cstr "execv: No such file or directory\n" ∧
      run.stderr.count newline = 1 := by
  obtain ⟨run, hrun, hout, _, hfail⟩ := C7_diagnostic_line osMissing [cstr "DISPLAY=:7"]
    (cstr "/opt/app/myapp") []
  obtain ⟨herr, hone⟩ := hfail 2 rfl
  exact ⟨run, hrun, hout, by rw [herr]; decide, hone (by decide)⟩

/-- C9: for every non-empty argument vector the path given to `execv` has at most 4095
bytes and is the longest prefix of `argv[0]` followed by .bin that has (every prefix
of at most 4095 bytes is a prefix of it); it is all of `argv[0]` followed by .bin
exactly when `argv[0]` has at most 4091 bytes, and for a longer `argv[0]` it is a
proper prefix of 4095 bytes; with the NUL, at most 4096 bytes are written. -/
theorem C9_path_bounded (os : OS) (environ : Env) (argv0 : CString) (rest : List CString) :
    ∃ run, main os environ (argv0 :: rest) = some run ∧
      run.call.path.length ≤ 4095 ∧
      run.call.path <+: argv0 ++ cstr ".bin" ∧
      (∀ q : CString, q <+: argv0 ++ cstr ".bin" → q.length ≤ 4095 → q <+: run.call.path) ∧
      (run.call.path = argv0 ++ cstr ".bin" ↔ argv0.length ≤ 4091) ∧
      (4091 < argv0.length →
        run.call.path.length = 4095 ∧ run.call.path ≠ argv0 ++ cstr ".bin") ∧
      snprintfWritten pathSize (argv0 ++ cstr ".bin") = run.call.path.length + 1 ∧
      snprintfWritten pathSize (argv0 ++ cstr ".bin") ≤ pathSize := by
  have hiff : snprintf pathSize (argv0 ++ cstr ".bin") = argv0 ++ cstr ".bin" ↔
      argv0.length ≤ 4091 := by
    rw [snprintf_eq_iff, List.length_append, bin_length, pathSize]
    omega
  have hle := snprintf_length_le pathSize (argv0 ++ cstr ".bin")
  refine ⟨_, main_cons os environ argv0 rest, hle, snprintf_initial _ _,
    fun q hq hlen => snprintf_longest _ _ q hq hlen, hiff, ?_, ?_, ?_⟩
  · intro h
    refine ⟨?_, fun heq => absurd (hiff.mp heq) (by omega)⟩
    show (snprintf pathSize (argv0 ++ cstr ".bin")).length = 4095
    rw [snprintf_length_of_lt, pathSize]
    rw [List.length_append, bin_length, pathSize]
    omega
  · simp [snprintfWritten, pathSize]
  · simp only [snprintfWritten, pathSize] at hle ⊢
    simp only [show (4096 : Nat) ≠ 0 by decide, if_false]
    omega

/-- C9 at an input: an `argv[0]` of 4095 bytes fills the buffer, the path given to
`execv` is `argv[0]` itself and no byte of .bin is left. -/
theorem C9_path_bounded_witness :
    ∃ run, main osMissing [] [List.replicate 4095 97] = some run ∧
      run.call.path.length = 4095 ∧
      run.call.path = List.replicate 4095 97 ∧
      run.call.path ≠ List.replicate 4095 97 ++ cstr ".bin" := by
  obtain ⟨run, hrun, _, _, hmax, _, hlong, _⟩ := C9_path_bounded osMissing []
    (List.replicate 4095 97) []
  have hlen : (List.replicate 4095 (97 : UInt8)).length = 4095 := List.length_replicate _ _
  have h := hlong (by rw [hlen]; decide)
  have hpre := hmax (List.replicate 4095 97) (List.prefix_append _ _) (Nat.le_of_eq hlen)
  exact ⟨run, hrun, h.1, (hpre.eq_of_length (hlen.trans h.1.symm)).symm, h.2⟩

end Lectern
